import Mathlib

/-!
Verification development for the school-manager API: a shallow embedding of
the department HTTP handlers, the user/course seeders and the slug utilities,
together with theorems settling the specification's claims about them.

Strings are Lean `String`s; timestamps are `Nat`; the relational tables are
lists of rows inside an explicit `DBState`; randomness (faker draws,
`Math.random`, `Date.now`) is passed in as explicit oracles so that every
possible trace of the original program corresponds to a choice of oracle.
-/

namespace SchoolManager

/-! ### Character helpers (ASCII case mapping and digits) -/

/-- ASCII lower-casing of a single character, as `String.prototype.toLowerCase`
acts on ASCII input: `A`–`Z` maps to `a`–`z`, everything else is unchanged. -/
def toLowerChar (c : Char) : Char :=
  if 65 ≤ c.toNat ∧ c.toNat ≤ 90 then Char.ofNat (c.toNat + 32) else c

/-- ASCII upper-casing of a single character, as `String.prototype.toUpperCase`
acts on ASCII input: `a`–`z` maps to `A`–`Z`, everything else is unchanged. -/
def toUpperChar (c : Char) : Char :=
  if 97 ≤ c.toNat ∧ c.toNat ≤ 122 then Char.ofNat (c.toNat - 32) else c

/-- The decimal digit character for `d < 10`. -/
def digitChar (d : Nat) : Char := Char.ofNat (48 + d)

/-- Little-endian decimal digits of `n`, driven by explicit fuel so that the
definition is structurally recursive (and hence kernel-evaluable). -/
def digitsRev : Nat → Nat → List Char
  | 0, _ => []
  | fuel + 1, n =>
    if n < 10 then [digitChar n]
    else digitChar (n % 10) :: digitsRev fuel (n / 10)

/-- The decimal digit string of `n`, as JavaScript number-to-string coercion
produces it for nonnegative integers (`String(7) = "7"`, `String(0) = "0"`). -/
def decReprL (n : Nat) : List Char := (digitsRev (n + 1) n).reverse

/-- `decRepr n` is the decimal representation of `n` as a `String`. -/
def decRepr (n : Nat) : String := ⟨decReprL n⟩

/-- Reads a decimal digit list back to a number (used to show `decReprL` is
injective). -/
def decValL (l : List Char) : Nat := l.foldl (fun a c => 10 * a + (c.toNat - 48)) 0

/-- `true` iff the string does not begin with a decimal digit (vacuously
`true` for the empty string). -/
def startsWithNonDigit (s : String) : Bool :=
  match s.data with
  | [] => true
  | c :: _ => !c.isDigit

/-! ### Slug utility

`slugify` lives in `@/utils`, which is not part of the sources under analysis;
only its call sites are. It is therefore modelled from the spec. -/

/-- A character that may appear in a slug besides the separator: a lowercase
ASCII letter or a decimal digit. -/
def isSlugSafe (c : Char) : Bool :=
  (97 ≤ c.toNat && c.toNat ≤ 122) || (48 ≤ c.toNat && c.toNat ≤ 57)

/-- Replaces every character that is not slug-safe by the hyphen separator. -/
def replaceUnsafe (c : Char) : Char := if isSlugSafe c then c else '-'

/-- Collapses every run of consecutive hyphens to a single hyphen. -/
def collapseDashes : List Char → List Char
  | [] => []
  | [c] => [c]
  | a :: b :: rest =>
    if a = '-' ∧ b = '-' then collapseDashes (b :: rest)
    else a :: collapseDashes (b :: rest)

/-- Removes leading and trailing hyphens. -/
def trimDashes (l : List Char) : List Char :=
  (((l.dropWhile (· = '-')).reverse).dropWhile (· = '-')).reverse

/-- `slugify` on the underlying character list: lower-case, replace every
non-URL-safe character by a hyphen, collapse hyphen runs, trim hyphens. -/
def slugifyL (l : List Char) : List Char :=
  trimDashes (collapseDashes (l.map (fun c => replaceUnsafe (toLowerChar c))))

/-- Modelled from the spec: `slugify` is defined in `@/utils`, which is absent
from the analysed sources. Per §4.1 it is a pure, deterministic function
producing a lowercase, hyphen-separated, URL-safe token from arbitrary display
text, idempotent under reapplication. -/
def slugify (s : String) : String := ⟨slugifyL s.data⟩

/-- `capitalizeFirstLetter` from the departments route file:
`str.charAt(0).toUpperCase() + str.slice(1)`. -/
def capitalizeFirstLetter (s : String) : String :=
  match s.data with
  | [] => ⟨[]⟩
  | c :: rest => ⟨toUpperChar c :: rest⟩

/-! ### Data model

Rows of the tables the claims are about. `userToDepartment` is declared
outside the analysed sources, but its shape (userId, departmentId, role) is
fully determined by the handlers that read and write it. -/

/-- The department-membership role enumeration `departmentUserRole`; the
handlers use the values `LEADER` and `LECTURER` (the latter is the default). -/
inductive DepartmentUserRole
  | leader
  | lecturer
deriving DecidableEq, Repr

/-- A row of `departmentsTable`. -/
structure Department where
  id : String
  name : String
  slug : String
  createdAt : Nat
  updatedAt : Nat
deriving DecidableEq, Repr

/-- A row of the `userToDepartment` membership table. -/
structure Membership where
  userId : String
  departmentId : String
  role : DepartmentUserRole
deriving DecidableEq, Repr

/-- A row of `coursesTable` (the columns the seeder writes and the
department handlers read). -/
structure Course where
  id : String
  departmentId : String
  name : String
  slug : String
  description : String
deriving DecidableEq, Repr

/-- The stored state the department handlers and the course seeder act on. -/
structure DBState where
  departments : List Department
  courses : List Course
  memberships : List Membership
deriving DecidableEq, Repr

/-! ### Department API handlers (`src/unnamed/part_000`) -/

/-- One element of the `GET /` response: department columns plus the three
aggregate counts computed by the correlated subqueries. -/
structure DepartmentListItem where
  id : String
  name : String
  slug : String
  createdAt : Nat
  updatedAt : Nat
  leadersCount : Nat
  lecturersCount : Nat
  coursesCount : Nat
deriving DecidableEq, Repr

/-- The `leaders_count` subquery: rows of `userToDepartment` with
`role = LEADER` and `departmentId = departments.id`. -/
def leadersCountOf (s : DBState) (deptId : String) : Nat :=
  (s.memberships.filter
    (fun m => decide (m.role = DepartmentUserRole.leader ∧ m.departmentId = deptId))).length

/-- The `lecturers_count` subquery: rows of `userToDepartment` with
`role = LECTURER` and `departmentId = departments.id`. -/
def lecturersCountOf (s : DBState) (deptId : String) : Nat :=
  (s.memberships.filter
    (fun m => decide (m.role = DepartmentUserRole.lecturer ∧ m.departmentId = deptId))).length

/-- The `count(distinct course.id)` aggregate over the left join on
`departmentId`. -/
def coursesCountOf (s : DBState) (deptId : String) : Nat :=
  (((s.courses.filter (fun c => decide (c.departmentId = deptId))).map
    (fun c => c.id)).dedup).length

/-- `GET /`: one row per department with the three aggregate counts. -/
def getDepartments (s : DBState) : List DepartmentListItem :=
  s.departments.map (fun d =>
    { id := d.id, name := d.name, slug := d.slug,
      createdAt := d.createdAt, updatedAt := d.updatedAt,
      leadersCount := leadersCountOf s d.id,
      lecturersCount := lecturersCountOf s d.id,
      coursesCount := coursesCountOf s d.id })

/-- Whether a department row with the given slug exists
(`db.query.departmentsTable.findFirst` on the slug). -/
def slugTaken (s : DBState) (slug : String) : Bool :=
  s.departments.any (fun d => decide (d.slug = slug))

/-- The `while` loop of the create handler: starting from the base slug, keep
appending `-counter` (counter = 1, 2, ...) until the candidate is not taken.
Fuel makes the recursion structural; `departments.length + 1` candidates always
suffice, because the loop only stops on a free slug. -/
def resolveSlugAux (s : DBState) (base : String) : String → Nat → Nat → String
  | slug, _, 0 => slug
  | slug, counter, fuel + 1 =>
    if slugTaken s slug then
      resolveSlugAux s base (base ++ "-" ++ decRepr counter) (counter + 1) fuel
    else slug

/-- The collision-resolved slug the create handler computes (and, as the
source stands, then discards). -/
def resolveSlug (s : DBState) (base : String) : String :=
  resolveSlugAux s base base 1 (s.departments.length + 1)

/-- Outcome of `POST /` (create department). -/
inductive CreateResult
  | badRequest (field : String)
  | created (dept : Department)
  | serverError
deriving DecidableEq, Repr

/-- `POST /`: validate the name (2–100 characters), compute the
collision-resolved slug, then insert — with the slug recomputed as
`slugify(name)` (the resolved slug is not the one inserted, exactly as in the
source). An insert violating the unique constraint on `slug` raises, is caught
and surfaces as a 500 with no row persisted. -/
def createDepartment (s : DBState) (name : String) (now : Nat) (newId : String) :
    CreateResult × DBState :=
  if name.length < 2 ∨ 100 < name.length then (.badRequest "name", s)
  else
    let _resolved := resolveSlug s (slugify name)
    let insertedSlug := slugify name
    if slugTaken s insertedSlug then (.serverError, s)
    else
      let d : Department :=
        { id := newId, name := capitalizeFirstLetter name, slug := insertedSlug,
          createdAt := now, updatedAt := now }
      (.created d, { s with departments := s.departments ++ [d] })

/-- Outcome of `PUT /:slug` and `POST /members`. -/
inductive MutResult
  | badRequest (field : String)
  | ok
deriving DecidableEq, Repr

/-- `PUT /:slug`: validate the name, then update every department row whose
slug matches, setting `name` to the capitalized input and overwriting both
`createdAt` and `updatedAt` with the current time. -/
def updateDepartmentBySlug (s : DBState) (slug name : String) (now : Nat) :
    MutResult × DBState :=
  if name.length < 2 ∨ 100 < name.length then (.badRequest "name", s)
  else
    (.ok, { s with departments := s.departments.map (fun d =>
      if d.slug = slug then
        { d with name := capitalizeFirstLetter name, createdAt := now, updatedAt := now }
      else d) })

/-- `POST /members`: validate that both ids are nonempty (the role is an enum
value with default `LECTURER`), then insert the membership row. -/
def addMember (s : DBState) (userId departmentId : String) (role : DepartmentUserRole) :
    MutResult × DBState :=
  if userId.length < 1 then (.badRequest "userId", s)
  else if departmentId.length < 1 then (.badRequest "departmentId", s)
  else
    (.ok, { s with memberships :=
      s.memberships ++ [{ userId := userId, departmentId := departmentId, role := role }] })

/-- One `db.delete(userToDepartment)` call of the `PATCH /members` handler:
removes every membership row matching the (userId, departmentId) pair, with no
condition on the role. -/
def deleteMembershipPair (rows : List Membership) (p : String × String) : List Membership :=
  rows.filter (fun m => !(decide (m.userId = p.1 ∧ m.departmentId = p.2)))

/-- `PATCH /members`: one delete per listed pair (the concurrent deletes
commute, so their combined effect is the fold). -/
def removeMembers (s : DBState) (pairs : List (String × String)) : DBState :=
  { s with memberships := pairs.foldl deleteMembershipPair s.memberships }

/-! ### Seeders (`src/db/seeds`) -/

/-- `emailsFrom t randoms`: the email each generated user receives, its
position in the run (starting at `t`) prefixed to its random draw. Reference
form used to reason about the batched loop below. -/
def emailsFrom : Nat → List String → List String
  | _, [] => []
  | t, e :: rest => (decRepr t ++ e) :: emailsFrom (t + 1) rest

/-- The `Array.from({length}, (_, idx) => ...)` body of one user-seeder batch:
element `idx` of the chunk gets email `String(totalInserted + idx) + draw`. -/
def fromIdx : Nat → Nat → List String → List String
  | _, _, [] => []
  | t, idx, e :: rest => (decRepr (t + idx) ++ e) :: fromIdx t (idx + 1) rest

/-- The user seeder's `while (totalInserted < length)` loop, restricted to the
emails it generates: chunks of at most 1000 draws, each chunk indexed from the
running total. Fuel (one unit per inserted user) keeps the recursion
structural. -/
def userSeederLoop : Nat → List String → Nat → List String
  | 0, _, _ => []
  | _ + 1, [], _ => []
  | fuel + 1, randoms, totalInserted =>
    let cur := min 1000 randoms.length
    fromIdx totalInserted 0 (randoms.take cur) ++
      userSeederLoop fuel (randoms.drop cur) (totalInserted + cur)

/-- The emails of the users inserted by `userSeeder`, one per element of the
random email stream (`randoms.length` plays the role of `length`). -/
def userSeederEmails (randoms : List String) : List String :=
  userSeederLoop randoms.length randoms 0

/-- The timestamp fallback slug of `generateUniqueSlug`. -/
def fallbackSlug (ts : Nat) : String := "course-" ++ decRepr ts

/-- The timestamp fallback name of `generateUniqueSlug`. -/
def fallbackName (ts : Nat) : String := "Course " ++ decRepr ts

/-- Result of one `generateUniqueSlug` call: the returned name/slug pair, the
updated in-process slug set, how far the random stream was consumed, and
whether the timestamp fallback was taken. -/
structure GuResult where
  slug : String
  name : String
  slugSet : List String
  pos : Nat
  usedFallback : Bool
deriving DecidableEq, Repr

/-- The `while (attempts < maxAttempts)` loop of `generateUniqueSlug`. `rand`
is the per-attempt random oracle (the faker department name and the
`Math.floor(Math.random() * 1000)` suffix), `pos` the next unconsumed draw,
and the last argument the remaining attempts. -/
def guSlugLoop (rand : Nat → String × Nat) (ts : Nat) : Nat → List String → Nat → GuResult
  | pos, set, 0 =>
    { slug := fallbackSlug ts, name := fallbackName ts,
      slugSet := fallbackSlug ts :: set, pos := pos, usedFallback := true }
  | pos, set, remaining + 1 =>
    let nm := (rand pos).1
    let slug := slugify nm
    if set.contains slug then
      let slugWithSuffix := slug ++ "-" ++ decRepr (rand pos).2
      if set.contains slugWithSuffix then
        guSlugLoop rand ts (pos + 1) set remaining
      else
        { slug := slugWithSuffix, name := nm,
          slugSet := slugWithSuffix :: set, pos := pos + 1, usedFallback := false }
    else
      { slug := slug, name := nm,
        slugSet := slug :: set, pos := pos + 1, usedFallback := false }

/-- `generateUniqueSlug` with its attempt budget of 100. -/
def generateUniqueSlug (rand : Nat → String × Nat) (ts : Nat) (set : List String)
    (pos : Nat) : GuResult :=
  guSlugLoop rand ts pos set 100

/-- Result of the course seeder's generation loop. -/
structure BuildResult where
  courses : List Course
  slugSet : List String
  pos : Nat
  usedFallback : Bool
deriving DecidableEq, Repr

/-- The `for (let i = 0; i < length; i++)` loop of `coursesSeeder`: pick a
department at random, generate a unique name/slug pair against the growing
in-process set, and push the course data. `pick`, `descs`, `idsO` and `tsO`
are the oracles for the department pick, the lorem description, the generated
row id and the `Date.now()` value of each iteration. -/
def buildCourses (deptIds : List String) (rand : Nat → String × Nat) (pick : Nat → Nat)
    (descs idsO : Nat → String) (tsO : Nat → Nat) :
    Nat → Nat → Nat → List String → List Course → Bool → BuildResult
  | 0, _, pos, set, acc, fb => { courses := acc, slugSet := set, pos := pos, usedFallback := fb }
  | n + 1, i, pos, set, acc, fb =>
    let deptId := deptIds.getD (pick i % deptIds.length) ""
    let g := generateUniqueSlug rand (tsO i) set pos
    let c : Course :=
      { id := idsO i, departmentId := deptId, name := g.name, slug := g.slug,
        description := descs i }
    buildCourses deptIds rand pick descs idsO tsO n (i + 1) g.pos g.slugSet
      (acc ++ [c]) (fb || g.usedFallback)

/-- Outcome of `coursesSeeder`. -/
inductive SeederResult
  | noDepartments
  | seeded (courses : List Course)
deriving DecidableEq, Repr

/-- `coursesSeeder(length)`: clear all course rows, load the department ids,
abort with a logged notice if there are none, otherwise build `n` courses
against a fresh in-process slug set and bulk-insert them. -/
def coursesSeeder (s : DBState) (rand : Nat → String × Nat) (pick : Nat → Nat)
    (descs idsO : Nat → String) (tsO : Nat → Nat) (n : Nat) : SeederResult × DBState :=
  let s1 := { s with courses := [] }
  let deptIds : List String := s1.departments.map (fun d => d.id)
  if deptIds.length = 0 then (.noDepartments, s1)
  else
    let r := buildCourses deptIds rand pick descs idsO tsO n 0 0 [] [] false
    (.seeded r.courses, { s1 with courses := r.courses })

/-! ### Theorems -/

/-- Claim C7: a create request whose name fails validation (length below 2 or
above 100 characters) is answered with status 400 carrying a field-level error
on `name`, and no department row is persisted — the stored state is returned
unchanged. -/
theorem create_invalid_name_rejected (s : DBState) (name : String) (now : Nat)
    (newId : String) (h : name.length < 2 ∨ 100 < name.length) :
    createDepartment s name now newId = (.badRequest "name", s) := by
  simp only [createDepartment, if_pos h]

/-- Witness for C7: the one-character name `"a"` is rejected with a `name`
field error and the state (here a one-department state) is untouched. -/
theorem create_invalid_name_rejected_witness :
    (("a" : String).length < 2 ∨ 100 < ("a" : String).length) ∧
    createDepartment ⟨[⟨"d1", "Math", "math", 0, 0⟩], [], []⟩ "a" 5 "id9" =
      (.badRequest "name", ⟨[⟨"d1", "Math", "math", 0, 0⟩], [], []⟩) :=
  ⟨by decide, create_invalid_name_rejected _ "a" 5 "id9" (by decide)⟩

/-- Claim C3: for a valid name, update-by-slug answers 200 and rewrites exactly
the department rows whose slug matches, setting the name to the capitalized
input and overwriting both timestamps with the current time while keeping id
and slug; every non-matching department row, and the courses and memberships
tables, are unchanged. -/
theorem update_by_slug_frame (s : DBState) (slug name : String) (now : Nat)
    (hv : 2 ≤ name.length ∧ name.length ≤ 100) :
    (updateDepartmentBySlug s slug name now).1 = .ok ∧
    (∀ i : Nat,
      (updateDepartmentBySlug s slug name now).2.departments[i]? =
        (s.departments[i]?).map (fun d =>
          if d.slug = slug then
            { d with name := capitalizeFirstLetter name, createdAt := now, updatedAt := now }
          else d)) ∧
    (updateDepartmentBySlug s slug name now).2.courses = s.courses ∧
    (updateDepartmentBySlug s slug name now).2.memberships = s.memberships := by
  have hno : ¬(name.length < 2 ∨ 100 < name.length) := by omega
  refine ⟨?_, ?_, ?_, ?_⟩ <;>
    simp [updateDepartmentBySlug, if_neg hno]

/-- Witness for C3: updating slug `"math"` in a two-department state rewrites
the matching row (fresh timestamps, capitalized name, same id and slug) and
leaves the other row alone. -/
theorem update_by_slug_frame_witness :
    (2 ≤ ("physics dept" : String).length ∧ ("physics dept" : String).length ≤ 100) ∧
    ((updateDepartmentBySlug ⟨[⟨"d1", "Math", "math", 1, 2⟩, ⟨"d2", "Art", "art", 3, 4⟩],
        [], []⟩ "math" "physics dept" 9).1 = .ok ∧
     (∀ i : Nat,
       (updateDepartmentBySlug ⟨[⟨"d1", "Math", "math", 1, 2⟩, ⟨"d2", "Art", "art", 3, 4⟩],
          [], []⟩ "math" "physics dept" 9).2.departments[i]? =
         (([⟨"d1", "Math", "math", 1, 2⟩, ⟨"d2", "Art", "art", 3, 4⟩] :
            List Department)[i]?).map (fun d =>
           if d.slug = "math" then
             { d with name := capitalizeFirstLetter "physics dept", createdAt := 9,
                      updatedAt := 9 }
           else d)) ∧
     (updateDepartmentBySlug ⟨[⟨"d1", "Math", "math", 1, 2⟩, ⟨"d2", "Art", "art", 3, 4⟩],
        [], []⟩ "math" "physics dept" 9).2.courses = [] ∧
     (updateDepartmentBySlug ⟨[⟨"d1", "Math", "math", 1, 2⟩, ⟨"d2", "Art", "art", 3, 4⟩],
        [], []⟩ "math" "physics dept" 9).2.memberships = []) :=
  ⟨by decide,
   update_by_slug_frame ⟨[⟨"d1", "Math", "math", 1, 2⟩, ⟨"d2", "Art", "art", 3, 4⟩], [], []⟩
     "math" "physics dept" 9 (by decide)⟩

/-- Claim C1 (code bug): creating `"math"` twice on an empty table. The first
call persists slug `"math"`. On the second call the handler's while loop does
compute the collision-resolved slug `"math-1"`, but the insert statement
recomputes `slugify(name)` and attempts to persist `"math"` again, so the
second call hits the unique constraint and answers 500 with no row persisted —
no `"math-1"` department ever exists. -/
theorem create_department_inserts_unresolved_slug :
    (createDepartment ⟨[], [], []⟩ "math" 100 "id1").1 =
      .created ⟨"id1", "Math", "math", 100, 100⟩ ∧
    resolveSlug (createDepartment ⟨[], [], []⟩ "math" 100 "id1").2 "math" = "math-1" ∧
    (createDepartment (createDepartment ⟨[], [], []⟩ "math" 100 "id1").2 "math" 200 "id2").1 =
      .serverError ∧
    (createDepartment (createDepartment ⟨[], [], []⟩ "math" 100 "id1").2 "math" 200 "id2").2 =
      (createDepartment ⟨[], [], []⟩ "math" 100 "id1").2 := by
  decide

/-- Counterexample for C5: running the course seeder with zero departments and
one pre-existing course returns normally with the logged-notice outcome, but
the stored state is not unchanged — the initial destructive clear has emptied
the courses table before the department check runs. -/
theorem courses_seeder_no_departments_cex :
    (coursesSeeder ⟨[], [⟨"c1", "dX", "Old", "old", "t"⟩], []⟩ (fun _ => ("a", 0)) (fun _ => 0)
        (fun _ => "x") (fun _ => "i") (fun _ => 7) 3).1 = .noDepartments ∧
    (coursesSeeder ⟨[], [⟨"c1", "dX", "Old", "old", "t"⟩], []⟩ (fun _ => ("a", 0)) (fun _ => 0)
        (fun _ => "x") (fun _ => "i") (fun _ => 7) 3).2 ≠
      ⟨[], [⟨"c1", "dX", "Old", "old", "t"⟩], []⟩ := by
  constructor
  · rfl
  · intro h
    simpa [coursesSeeder] using congrArg DBState.courses h

/-- Claim C5 as amended: with zero departments the course seeder returns
normally with the logged notice and inserts no courses, but the initial
destructive clear has already deleted every pre-existing course row, so the
final state is the input state with the courses table emptied (departments and
memberships unchanged) — identical to the input only when no courses existed. -/
theorem courses_seeder_no_departments (s : DBState) (rand : Nat → String × Nat)
    (pick : Nat → Nat) (descs idsO : Nat → String) (tsO : Nat → Nat) (n : Nat)
    (h : s.departments = []) :
    coursesSeeder s rand pick descs idsO tsO n = (.noDepartments, { s with courses := [] }) := by
  simp [coursesSeeder, h]

/-- Witness for C5 (amended): a concrete departmentless state with one course
row ends as the same state with courses emptied. -/
theorem courses_seeder_no_departments_witness :
    (⟨[], [⟨"c1", "dX", "Old", "old", "t"⟩], [⟨"u", "d", .leader⟩]⟩ : DBState).departments =
      [] ∧
    coursesSeeder ⟨[], [⟨"c1", "dX", "Old", "old", "t"⟩], [⟨"u", "d", .leader⟩]⟩
        (fun _ => ("a", 0)) (fun _ => 0) (fun _ => "x") (fun _ => "i") (fun _ => 7) 3 =
      (.noDepartments, ⟨[], [], [⟨"u", "d", .leader⟩]⟩) :=
  ⟨rfl,
   courses_seeder_no_departments ⟨[], [⟨"c1", "dX", "Old", "old", "t"⟩], [⟨"u", "d", .leader⟩]⟩
     (fun _ => ("a", 0)) (fun _ => 0) (fun _ => "x") (fun _ => "i") (fun _ => 7) 3 rfl⟩

/-- The fold of per-pair deletes equals one filter against the whole pair
list. -/
theorem foldl_delete_eq_filter (pairs : List (String × String)) (rows : List Membership) :
    pairs.foldl deleteMembershipPair rows =
      rows.filter (fun m =>
        !(pairs.any (fun p => decide (m.userId = p.1 ∧ m.departmentId = p.2)))) := by
  induction pairs generalizing rows with
  | nil => simp
  | cons p ps ih =>
    rw [List.foldl_cons, ih, deleteMembershipPair, List.filter_filter]
    apply List.filter_congr
    intro m _
    simp only [List.any_cons, Bool.not_or, Bool.and_comm]

/-- Claim C10: the remove-members operation deletes every membership row whose
(userId, departmentId) pair is listed, with no condition on the role — leader
rows, lecturer rows and duplicate rows for a listed pair are all removed — and
keeps every membership row whose pair is not listed, as well as the
departments and courses tables, exactly as they were. -/
theorem remove_members_removes_listed_pairs (s : DBState) (pairs : List (String × String)) :
    (removeMembers s pairs).memberships =
      s.memberships.filter (fun m =>
        !(pairs.any (fun p => decide (m.userId = p.1 ∧ m.departmentId = p.2)))) ∧
    (∀ m ∈ (removeMembers s pairs).memberships, ∀ p ∈ pairs,
      ¬(m.userId = p.1 ∧ m.departmentId = p.2)) ∧
    (removeMembers s pairs).departments = s.departments ∧
    (removeMembers s pairs).courses = s.courses := by
  refine ⟨foldl_delete_eq_filter pairs s.memberships, ?_, rfl, rfl⟩
  intro m hm p hp hmp
  rw [show (removeMembers s pairs).memberships = pairs.foldl deleteMembershipPair s.memberships
        from rfl,
      foldl_delete_eq_filter pairs s.memberships] at hm
  have := (List.mem_filter.mp hm).2
  simp only [Bool.not_eq_true', List.any_eq_false] at this
  exact absurd (decide_eq_true hmp) (by simpa using this p hp)

/-- Inserting a membership row appends to the filtered leader count exactly
when the new row is a leader row for the counted department. -/
theorem leadersCountOf_insert (deps : List Department) (cs : List Course)
    (ms : List Membership) (u dId x : String) (r : DepartmentUserRole) :
    leadersCountOf ⟨deps, cs, ms ++ [⟨u, dId, r⟩]⟩ x =
      leadersCountOf ⟨deps, cs, ms⟩ x +
        (if r = .leader ∧ dId = x then 1 else 0) := by
  simp only [leadersCountOf, List.filter_append, List.length_append]
  congr 1
  by_cases h : r = DepartmentUserRole.leader ∧ dId = x
  · simp [h.1, h.2, if_pos h]
  · rw [if_neg h]
    simp only [List.filter_cons, List.filter_nil]
    rw [if_neg]
    · rfl
    · simpa using h

/-- Inserting a leader membership row never changes any lecturer count. -/
theorem lecturersCountOf_insert_leader (deps : List Department) (cs : List Course)
    (ms : List Membership) (u dId x : String) :
    lecturersCountOf ⟨deps, cs, ms ++ [⟨u, dId, .leader⟩]⟩ x =
      lecturersCountOf ⟨deps, cs, ms⟩ x := by
  simp [lecturersCountOf, List.filter_append, List.filter_cons]

/-- Claim C2: when the add-member operation succeeds with role `leader` for a
department id, the subsequent `GET /` listing is the previous listing with
exactly that department's `leadersCount` incremented by 1; every
`lecturersCount` (and every other field of every row) is unchanged. -/
theorem add_leader_bumps_leaders_count (s : DBState) (userId departmentId : String)
    (hu : 1 ≤ userId.length) (hd : 1 ≤ departmentId.length) :
    (addMember s userId departmentId .leader).1 = .ok ∧
    getDepartments (addMember s userId departmentId .leader).2 =
      (getDepartments s).map (fun it =>
        if it.id = departmentId then { it with leadersCount := it.leadersCount + 1 }
        else it) := by
  have h1 : ¬(userId.length < 1) := by omega
  have h2 : ¬(departmentId.length < 1) := by omega
  unfold addMember
  rw [if_neg h1, if_neg h2]
  refine ⟨rfl, ?_⟩
  rw [getDepartments, getDepartments, List.map_map]
  apply List.map_congr_left
  intro d _
  simp only [Function.comp]
  by_cases hid : d.id = departmentId
  · rw [if_pos hid]
    simp only [DepartmentListItem.mk.injEq, true_and, and_true]
    refine ⟨?_, ?_, rfl⟩
    · rw [leadersCountOf_insert s.departments s.courses s.memberships userId departmentId d.id
        DepartmentUserRole.leader, if_pos ⟨rfl, hid.symm⟩]
    · exact lecturersCountOf_insert_leader s.departments s.courses s.memberships userId
        departmentId d.id
  · rw [if_neg hid]
    simp only [DepartmentListItem.mk.injEq, true_and, and_true]
    refine ⟨?_, ?_, rfl⟩
    · rw [leadersCountOf_insert s.departments s.courses s.memberships userId departmentId d.id
        DepartmentUserRole.leader, if_neg (fun h => hid h.2.symm)]
      rfl
    · exact lecturersCountOf_insert_leader s.departments s.courses s.memberships userId
        departmentId d.id

/-- Witness for C2: adding a leader to department `"d1"` of a two-department
state bumps exactly `"d1"`'s leaders count in the listing. -/
theorem add_leader_bumps_leaders_count_witness :
    1 ≤ ("u1" : String).length ∧ 1 ≤ ("d1" : String).length ∧
    ((addMember ⟨[⟨"d1", "Math", "math", 0, 0⟩, ⟨"d2", "Art", "art", 0, 0⟩], [],
        [⟨"u9", "d1", .lecturer⟩]⟩ "u1" "d1" .leader).1 = .ok ∧
     getDepartments (addMember ⟨[⟨"d1", "Math", "math", 0, 0⟩, ⟨"d2", "Art", "art", 0, 0⟩], [],
        [⟨"u9", "d1", .lecturer⟩]⟩ "u1" "d1" .leader).2 =
       (getDepartments ⟨[⟨"d1", "Math", "math", 0, 0⟩, ⟨"d2", "Art", "art", 0, 0⟩], [],
          [⟨"u9", "d1", .lecturer⟩]⟩).map (fun it =>
         if it.id = "d1" then { it with leadersCount := it.leadersCount + 1 }
         else it)) :=
  ⟨by decide, by decide,
   add_leader_bumps_leaders_count ⟨[⟨"d1", "Math", "math", 0, 0⟩, ⟨"d2", "Art", "art", 0, 0⟩],
     [], [⟨"u9", "d1", .lecturer⟩]⟩ "u1" "d1" (by decide) (by decide)⟩

/-- When every one of the next `r` candidate rounds collides with the set, the
retry loop consumes exactly `r` draws and returns the timestamp fallback. -/
theorem guSlugLoop_all_collide (rand : Nat → String × Nat) (ts : Nat) :
    ∀ (r pos : Nat) (set : List String),
      (∀ k, k < r → slugify (rand (pos + k)).1 ∈ set ∧
        slugify (rand (pos + k)).1 ++ "-" ++ decRepr (rand (pos + k)).2 ∈ set) →
      guSlugLoop rand ts pos set r =
        { slug := fallbackSlug ts, name := fallbackName ts,
          slugSet := fallbackSlug ts :: set, pos := pos + r, usedFallback := true } := by
  intro r
  induction r with
  | zero => intro pos set _; rfl
  | succ r ih =>
    intro pos set h
    have h0 := h 0 (Nat.succ_pos r)
    rw [Nat.add_zero] at h0
    have hc1 : set.contains (slugify (rand pos).1) = true := List.elem_iff.mpr h0.1
    have hc2 : set.contains (slugify (rand pos).1 ++ "-" ++ decRepr (rand pos).2) = true :=
      List.elem_iff.mpr h0.2
    show (if set.contains (slugify (rand pos).1) then _ else _) = _
    rw [if_pos hc1, if_pos hc2, ih (pos + 1) set (fun k hk => by
      have := h (k + 1) (Nat.succ_lt_succ hk)
      rwa [Nat.add_comm k 1, ← Nat.add_assoc] at this)]
    have : pos + 1 + r = pos + (r + 1) := by omega
    rw [this]

/-- Claim C9: `generateUniqueSlug` is total (it is a plain function here), its
retry loop runs at most 100 attempts — shown by the worst case, in which every
one of the first 100 candidate rounds collides — after which it returns the
timestamp-derived fallback name and slug, consuming exactly 100 random
draws. -/
theorem generate_unique_slug_attempt_bound (rand : Nat → String × Nat) (ts : Nat)
    (set : List String) (pos : Nat)
    (h : ∀ k, k < 100 → slugify (rand (pos + k)).1 ∈ set ∧
      slugify (rand (pos + k)).1 ++ "-" ++ decRepr (rand (pos + k)).2 ∈ set) :
    generateUniqueSlug rand ts set pos =
      { slug := fallbackSlug ts, name := fallbackName ts,
        slugSet := fallbackSlug ts :: set, pos := pos + 100, usedFallback := true } :=
  guSlugLoop_all_collide rand ts 100 pos set h

/-- Witness for C9: with the set already holding `"a"` and `"a-0"` and a
constant random oracle, all 100 attempts fail and the call returns
`course-7`. -/
theorem generate_unique_slug_attempt_bound_witness :
    (∀ k, k < 100 → slugify ((fun _ : Nat => (("a" : String), 0)) (0 + k)).1 ∈
        (["a", "a-0"] : List String) ∧
      slugify ((fun _ : Nat => (("a" : String), 0)) (0 + k)).1 ++ "-" ++
        decRepr ((fun _ : Nat => (("a" : String), 0)) (0 + k)).2 ∈
        (["a", "a-0"] : List String)) ∧
    generateUniqueSlug (fun _ => ("a", 0)) 7 ["a", "a-0"] 0 =
      { slug := fallbackSlug 7, name := fallbackName 7,
        slugSet := fallbackSlug 7 :: ["a", "a-0"], pos := 0 + 100, usedFallback := true } :=
  ⟨by decide, generate_unique_slug_attempt_bound (fun _ => ("a", 0)) 7 ["a", "a-0"] 0 (by decide)⟩

/-- Exhausted attempt budget: the loop returns the timestamp fallback and adds
its slug to the set without checking it. -/
theorem guSlugLoop_zero (rand : Nat → String × Nat) (ts pos : Nat) (set : List String) :
    guSlugLoop rand ts pos set 0 =
      { slug := fallbackSlug ts, name := fallbackName ts,
        slugSet := fallbackSlug ts :: set, pos := pos, usedFallback := true } := rfl

/-- One-step unfolding of the retry loop. -/
theorem guSlugLoop_succ (rand : Nat → String × Nat) (ts pos : Nat) (set : List String)
    (r : Nat) :
    guSlugLoop rand ts pos set (r + 1) =
      if set.contains (slugify (rand pos).1) then
        if set.contains (slugify (rand pos).1 ++ "-" ++ decRepr (rand pos).2) then
          guSlugLoop rand ts (pos + 1) set r
        else
          { slug := slugify (rand pos).1 ++ "-" ++ decRepr (rand pos).2,
            name := (rand pos).1,
            slugSet := (slugify (rand pos).1 ++ "-" ++ decRepr (rand pos).2) :: set,
            pos := pos + 1, usedFallback := false }
      else
        { slug := slugify (rand pos).1, name := (rand pos).1,
          slugSet := slugify (rand pos).1 :: set, pos := pos + 1,
          usedFallback := false } := rfl

/-- One-step unfolding of the course-generation loop. -/
theorem buildCourses_succ (deptIds : List String) (rand : Nat → String × Nat)
    (pick : Nat → Nat) (descs idsO : Nat → String) (tsO : Nat → Nat)
    (n i pos : Nat) (set : List String) (acc : List Course) (fb : Bool) :
    buildCourses deptIds rand pick descs idsO tsO (n + 1) i pos set acc fb =
      buildCourses deptIds rand pick descs idsO tsO n (i + 1)
        (generateUniqueSlug rand (tsO i) set pos).pos
        (generateUniqueSlug rand (tsO i) set pos).slugSet
        (acc ++ [{ id := idsO i,
                   departmentId := deptIds.getD (pick i % deptIds.length) "",
                   name := (generateUniqueSlug rand (tsO i) set pos).name,
                   slug := (generateUniqueSlug rand (tsO i) set pos).slug,
                   description := descs i }])
        (fb || (generateUniqueSlug rand (tsO i) set pos).usedFallback) := rfl

/-- Every `generateUniqueSlug` return adds exactly the returned slug to the
in-process set (on the fallback path, without a freshness check). -/
theorem guSlugLoop_slugSet (rand : Nat → String × Nat) (ts : Nat) :
    ∀ (r pos : Nat) (set : List String),
      (guSlugLoop rand ts pos set r).slugSet = (guSlugLoop rand ts pos set r).slug :: set := by
  intro r
  induction r with
  | zero => intro pos set; rfl
  | succ r ih =>
    intro pos set
    rw [guSlugLoop_succ]
    by_cases h1 : set.contains (slugify (rand pos).1)
    · rw [if_pos h1]
      by_cases h2 : set.contains (slugify (rand pos).1 ++ "-" ++ decRepr (rand pos).2)
      · rw [if_pos h2]
        exact ih (pos + 1) set
      · rw [if_neg h2]
    · rw [if_neg h1]

/-- A slug returned by a non-fallback path of the retry loop is absent from
the set at the moment it is returned. -/
theorem guSlugLoop_fresh (rand : Nat → String × Nat) (ts : Nat) :
    ∀ (r pos : Nat) (set : List String),
      (guSlugLoop rand ts pos set r).usedFallback = false →
      (guSlugLoop rand ts pos set r).slug ∉ set := by
  intro r
  induction r with
  | zero => intro pos set h; exact absurd h (by simp [guSlugLoop_zero])
  | succ r ih =>
    intro pos set
    rw [guSlugLoop_succ]
    by_cases h1 : set.contains (slugify (rand pos).1)
    · rw [if_pos h1]
      by_cases h2 : set.contains (slugify (rand pos).1 ++ "-" ++ decRepr (rand pos).2)
      · rw [if_pos h2]
        exact ih (pos + 1) set
      · rw [if_neg h2]
        intro _ hmem
        exact h2 (List.elem_iff.mpr hmem)
    · rw [if_neg h1]
      intro _ hmem
      exact h1 (List.elem_iff.mpr hmem)

/-- The fallback flag threaded through the generation loop is monotone. -/
theorem buildCourses_fb_mono (deptIds : List String) (rand : Nat → String × Nat)
    (pick : Nat → Nat) (descs idsO : Nat → String) (tsO : Nat → Nat) :
    ∀ (n i pos : Nat) (set : List String) (acc : List Course),
      (buildCourses deptIds rand pick descs idsO tsO n i pos set acc true).usedFallback =
        true := by
  intro n
  induction n with
  | zero => intro i pos set acc; rfl
  | succ n ih =>
    intro i pos set acc
    rw [buildCourses_succ, Bool.true_or]
    exact ih _ _ _ _

/-- Invariant of the generation loop: as long as no call takes the timestamp
fallback, every accumulated slug lies in the set, each new slug is fresh, and
the accumulated slugs stay pairwise distinct. -/
theorem buildCourses_pairwise (deptIds : List String) (rand : Nat → String × Nat)
    (pick : Nat → Nat) (descs idsO : Nat → String) (tsO : Nat → Nat) :
    ∀ (n i pos : Nat) (set : List String) (acc : List Course) (fb : Bool),
      (∀ sl ∈ acc.map Course.slug, sl ∈ set) →
      List.Pairwise (fun a b => a ≠ b) (acc.map Course.slug) →
      (buildCourses deptIds rand pick descs idsO tsO n i pos set acc fb).usedFallback = false →
      List.Pairwise (fun a b => a ≠ b)
        ((buildCourses deptIds rand pick descs idsO tsO n i pos set acc fb).courses.map
          Course.slug) := by
  intro n
  induction n with
  | zero => intro i pos set acc fb _ hpw _; exact hpw
  | succ n ih =>
    intro i pos set acc fb hsub hpw hfb
    rw [buildCourses_succ] at hfb ⊢
    have hgfb : (generateUniqueSlug rand (tsO i) set pos).usedFallback = false := by
      by_contra hg
      rw [Bool.not_eq_false] at hg
      rw [hg, Bool.or_true, buildCourses_fb_mono] at hfb
      exact Bool.true_eq_false.mp hfb
    have hfresh : (generateUniqueSlug rand (tsO i) set pos).slug ∉ set :=
      guSlugLoop_fresh rand (tsO i) 100 pos set hgfb
    refine ih (i + 1) (generateUniqueSlug rand (tsO i) set pos).pos
      (generateUniqueSlug rand (tsO i) set pos).slugSet _ _ ?_ ?_ hfb
    · intro sl hsl
      rw [List.map_append, List.mem_append] at hsl
      rw [show (generateUniqueSlug rand (tsO i) set pos).slugSet =
          (generateUniqueSlug rand (tsO i) set pos).slug :: set
          from guSlugLoop_slugSet rand (tsO i) 100 pos set]
      rcases hsl with h | h
      · exact List.mem_cons_of_mem _ (hsub sl h)
      · simp only [List.map_cons, List.map_nil, List.mem_singleton] at h
        rw [h]
        exact List.mem_cons_self _ _
    · rw [List.map_append, List.pairwise_append]
      refine ⟨hpw, List.pairwise_singleton _ _, ?_⟩
      intro a ha b hb
      simp only [List.map_cons, List.map_nil, List.mem_singleton] at hb
      rw [hb]
      intro hab
      exact hfresh (hab ▸ hsub a ha)

/-- The course seeder with at least one department: clears courses, builds the
course data against a fresh set, and stores exactly those rows. -/
theorem coursesSeeder_eq_of_ne (s : DBState) (rand : Nat → String × Nat) (pick : Nat → Nat)
    (descs idsO : Nat → String) (tsO : Nat → Nat) (n : Nat)
    (h : ¬((s.departments.map (fun d => d.id)).length = 0)) :
    coursesSeeder s rand pick descs idsO tsO n =
      (.seeded (buildCourses (s.departments.map (fun d => d.id)) rand pick descs idsO tsO n
          0 0 [] [] false).courses,
       { departments := s.departments,
         courses := (buildCourses (s.departments.map (fun d => d.id)) rand pick descs idsO tsO n
           0 0 [] [] false).courses,
         memberships := s.memberships }) := by
  simp only [coursesSeeder, if_neg h]

/-- Claim C4 as amended: in every run of the course seeder with at least one
department in which no `generateUniqueSlug` call exhausts its 100-attempt
budget, the inserted courses have pairwise distinct slugs; every non-fallback
slug handed out is absent from the in-process set at the moment it is returned
and is added to it. (The timestamp fallback slug is added without a freshness
check and can collide — see the counterexample.) -/
theorem courses_seeder_slugs_distinct (s : DBState) (rand : Nat → String × Nat)
    (pick : Nat → Nat) (descs idsO : Nat → String) (tsO : Nat → Nat) (n : Nat)
    (hne : s.departments ≠ [])
    (hnf : (buildCourses (s.departments.map (fun d => d.id)) rand pick descs idsO tsO n
        0 0 [] [] false).usedFallback = false) :
    (coursesSeeder s rand pick descs idsO tsO n).1 =
      .seeded (buildCourses (s.departments.map (fun d => d.id)) rand pick descs idsO tsO n
        0 0 [] [] false).courses ∧
    List.Pairwise (fun a b => a ≠ b)
      ((coursesSeeder s rand pick descs idsO tsO n).2.courses.map (fun c => c.slug)) := by
  have hlen : ¬((s.departments.map (fun d => d.id)).length = 0) := by
    intro h
    exact hne (List.eq_nil_of_length_eq_zero (by simpa using h))
  rw [coursesSeeder_eq_of_ne s rand pick descs idsO tsO n hlen]
  refine ⟨rfl, ?_⟩
  exact buildCourses_pairwise (s.departments.map (fun d => d.id)) rand pick descs idsO tsO
    n 0 0 [] [] false (by simp) (by simp) hnf

/-- Witness for C4 (amended): a two-course run with distinct candidate names
takes no fallback and yields distinct slugs. -/
theorem courses_seeder_slugs_distinct_witness :
    ((⟨[⟨"d1", "Math", "math", 0, 0⟩], [], []⟩ : DBState).departments ≠ []) ∧
    ((buildCourses ((⟨[⟨"d1", "Math", "math", 0, 0⟩], [], []⟩ : DBState).departments.map
        (fun d => d.id)) (fun p => (decRepr p, 0)) (fun _ => 0) (fun _ => "x") (fun _ => "i")
        (fun _ => 7) 2 0 0 [] [] false).usedFallback = false) ∧
    ((coursesSeeder ⟨[⟨"d1", "Math", "math", 0, 0⟩], [], []⟩ (fun p => (decRepr p, 0))
        (fun _ => 0) (fun _ => "x") (fun _ => "i") (fun _ => 7) 2).1 =
      .seeded (buildCourses ((⟨[⟨"d1", "Math", "math", 0, 0⟩], [], []⟩ : DBState).departments.map
        (fun d => d.id)) (fun p => (decRepr p, 0)) (fun _ => 0) (fun _ => "x") (fun _ => "i")
        (fun _ => 7) 2 0 0 [] [] false).courses ∧
      List.Pairwise (fun a b => a ≠ b)
        ((coursesSeeder ⟨[⟨"d1", "Math", "math", 0, 0⟩], [], []⟩ (fun p => (decRepr p, 0))
          (fun _ => 0) (fun _ => "x") (fun _ => "i") (fun _ => 7) 2).2.courses.map
            (fun c => c.slug))) :=
  ⟨by decide, by decide,
   courses_seeder_slugs_distinct ⟨[⟨"d1", "Math", "math", 0, 0⟩], [], []⟩
     (fun p => (decRepr p, 0)) (fun _ => 0) (fun _ => "x") (fun _ => "i") (fun _ => 7) 2
     (by decide) (by decide)⟩

/-- Counterexample for C4 as stated: with one department, a constant random
oracle and a constant timestamp, a four-course run exhausts the attempt budget
twice; both exhausted calls return the same fallback slug `course-7`, which is
handed out even though it is already in the set, so the inserted slugs are not
pairwise distinct. -/
theorem courses_seeder_duplicate_slug_cex :
    (coursesSeeder ⟨[⟨"d1", "Math", "math", 0, 0⟩], [], []⟩ (fun _ => ("a", 0)) (fun _ => 0)
        (fun _ => "x") (fun _ => "i") (fun _ => 7) 4).2.courses.map (fun c => c.slug) =
      ["a", "a-0", "course-7", "course-7"] ∧
    ¬ List.Pairwise (fun a b : String => a ≠ b) ["a", "a-0", "course-7", "course-7"] :=
  ⟨by decide, by decide⟩

/-- The code point of a digit character. -/
theorem digitChar_toNat (d : Nat) (h : d < 10) : (digitChar d).toNat = 48 + d := by
  interval_cases d <;> decide

/-- Digit characters satisfy `Char.isDigit`. -/
theorem digitChar_isDigit (d : Nat) (h : d < 10) : (digitChar d).isDigit = true := by
  interval_cases d <;> decide

/-- Every character produced by `digitsRev` is a decimal digit. -/
theorem digitsRev_all_digits : ∀ (fuel n : Nat), ∀ c ∈ digitsRev fuel n, c.isDigit = true := by
  intro fuel
  induction fuel with
  | zero => intro n c hc; simp [digitsRev] at hc
  | succ fuel ih =>
    intro n c hc
    rw [digitsRev] at hc
    by_cases h : n < 10
    · rw [if_pos h] at hc
      rw [List.mem_singleton] at hc
      rw [hc]
      exact digitChar_isDigit n h
    · rw [if_neg h] at hc
      rcases List.mem_cons.mp hc with h1 | h1
      · rw [h1]
        exact digitChar_isDigit _ (Nat.mod_lt n (by omega))
      · exact ih _ c h1

/-- Every character of a decimal representation is a decimal digit. -/
theorem decReprL_all_digits (n : Nat) : ∀ c ∈ decReprL n, c.isDigit = true := by
  intro c hc
  rw [decReprL, List.mem_reverse] at hc
  exact digitsRev_all_digits _ n c hc

/-- `n + 1` decimal digits always suffice for `n`. -/
theorem lt_ten_pow : ∀ n : Nat, n < 10 ^ (n + 1) := by
  intro n
  induction n with
  | zero => norm_num
  | succ k ih =>
    have h1 : 10 ^ (k + 1) ≤ 10 ^ (k + 2) := Nat.pow_le_pow_right (by norm_num) (by omega)
    omega

/-- Evaluating the digits of `n` (given enough fuel) recovers `n`. -/
theorem decValL_digitsRev : ∀ (fuel n : Nat), n < 10 ^ fuel →
    decValL ((digitsRev fuel n).reverse) = n := by
  intro fuel
  induction fuel with
  | zero => intro n hn; interval_cases n; rfl
  | succ fuel ih =>
    intro n hn
    rw [digitsRev]
    by_cases h : n < 10
    · rw [if_pos h]
      show decValL [digitChar n] = n
      show 10 * 0 + ((digitChar n).toNat - 48) = n
      rw [digitChar_toNat n h]
      omega
    · rw [if_neg h]
      rw [List.reverse_cons]
      show List.foldl _ 0 _ = n
      rw [List.foldl_append]
      have hdiv : n / 10 < 10 ^ fuel := by
        rw [Nat.div_lt_iff_lt_mul (by norm_num)]
        calc n < 10 ^ (fuel + 1) := hn
        _ = 10 ^ fuel * 10 := by rw [Nat.pow_succ]
      rw [show List.foldl (fun a c => 10 * a + (c.toNat - 48)) 0 (digitsRev fuel (n / 10)).reverse
          = n / 10 from ih (n / 10) hdiv]
      show 10 * (n / 10) + ((digitChar (n % 10)).toNat - 48) = n
      rw [digitChar_toNat _ (Nat.mod_lt n (by omega))]
      omega

/-- Round trip: reading `decReprL n` back yields `n`. -/
theorem decValL_decReprL (n : Nat) : decValL (decReprL n) = n :=
  decValL_digitsRev (n + 1) n (lt_ten_pow n)

/-- Decimal representations are injective. -/
theorem decReprL_inj {a b : Nat} (h : decReprL a = decReprL b) : a = b := by
  have := congrArg decValL h
  rwa [decValL_decReprL, decValL_decReprL] at this

/-- A list whose head is not a digit has an empty leading digit run. -/
theorem takeWhile_digits_of_not_digit_head (e : List Char)
    (he : ∀ c, e.head? = some c → c.isDigit = false) :
    e.takeWhile Char.isDigit = [] := by
  cases e with
  | nil => rfl
  | cons c t => exact List.takeWhile_cons_of_neg (by simp [he c rfl])

/-- The leading digit run of `decReprL n ++ e` is exactly `decReprL n` when
`e` does not begin with a digit. -/
theorem takeWhile_decRepr_append (n : Nat) (e : List Char)
    (he : ∀ c, e.head? = some c → c.isDigit = false) :
    (decReprL n ++ e).takeWhile Char.isDigit = decReprL n := by
  rw [List.takeWhile_append_of_pos (decReprL_all_digits n),
    takeWhile_digits_of_not_digit_head e he, List.append_nil]

/-- Two index-prefixed strings whose suffixes do not begin with digits agree
on their indices whenever they are equal. -/
theorem decRepr_append_inj {a b : Nat} {e1 e2 : List Char}
    (h : decReprL a ++ e1 = decReprL b ++ e2)
    (h1 : ∀ c, e1.head? = some c → c.isDigit = false)
    (h2 : ∀ c, e2.head? = some c → c.isDigit = false) : a = b := by
  have := congrArg (List.takeWhile Char.isDigit) h
  rw [takeWhile_decRepr_append a e1 h1, takeWhile_decRepr_append b e2 h2] at this
  exact decReprL_inj this

/-- Unfolding of `startsWithNonDigit` to a statement about the head
character. -/
theorem head_not_digit_of_startsWithNonDigit (s : String) (h : startsWithNonDigit s = true) :
    ∀ c, s.data.head? = some c → c.isDigit = false := by
  intro c hc
  unfold startsWithNonDigit at h
  cases hdata : s.data with
  | nil => rw [hdata] at hc; simp at hc
  | cons d t =>
    rw [hdata] at h hc
    simp only [List.head?_cons, Option.some.injEq] at hc
    simp only [Bool.not_eq_true'] at h
    rw [hc] at h
    exact h

/-- Emails built from different run indices differ, provided neither random
suffix begins with a digit. -/
theorem email_ne_of_index_lt {t t' : Nat} (hlt : t < t') (e0 e : String)
    (h0 : startsWithNonDigit e0 = true) (h : startsWithNonDigit e = true) :
    decRepr t ++ e0 ≠ decRepr t' ++ e := by
  intro heq
  have hdata := congrArg String.data heq
  rw [String.data_append, String.data_append] at hdata
  have : t = t' :=
    decRepr_append_inj hdata (head_not_digit_of_startsWithNonDigit e0 h0)
      (head_not_digit_of_startsWithNonDigit e h)
  omega

/-- An email with a smaller index never occurs among the emails generated from
a larger starting index. -/
theorem not_mem_emailsFrom : ∀ (l : List String) (t' t : Nat) (e0 : String),
    t < t' → (∀ e ∈ l, startsWithNonDigit e = true) → startsWithNonDigit e0 = true →
    (decRepr t ++ e0) ∉ emailsFrom t' l := by
  intro l
  induction l with
  | nil => intro t' t e0 _ _ _ h; simp [emailsFrom] at h
  | cons e rest ih =>
    intro t' t e0 hlt hall h0 hmem
    rw [emailsFrom] at hmem
    rcases List.mem_cons.mp hmem with h1 | h1
    · exact email_ne_of_index_lt hlt e0 e h0 (hall e (List.mem_cons_self _ _)) h1
    · exact ih (t' + 1) t e0 (by omega) (fun x hx => hall x (List.mem_cons_of_mem _ hx)) h0 h1

/-- Index-prefixed emails are pairwise distinct whenever no random draw begins
with a digit. -/
theorem emailsFrom_pairwise : ∀ (l : List String) (t : Nat),
    (∀ e ∈ l, startsWithNonDigit e = true) →
    List.Pairwise (fun a b => a ≠ b) (emailsFrom t l) := by
  intro l
  induction l with
  | nil => intro t _; exact List.Pairwise.nil
  | cons e rest ih =>
    intro t hall
    rw [emailsFrom]
    refine List.Pairwise.cons ?_ (ih (t + 1) fun x hx => hall x (List.mem_cons_of_mem _ hx))
    intro y hy heq
    rw [← heq] at hy
    exact not_mem_emailsFrom rest (t + 1) t e (by omega)
      (fun x hx => hall x (List.mem_cons_of_mem _ hx)) (hall e (List.mem_cons_self _ _)) hy

/-- The per-batch index counter produces the same emails as the global-index
reference form. -/
theorem fromIdx_eq_emailsFrom : ∀ (l : List String) (t idx : Nat),
    fromIdx t idx l = emailsFrom (t + idx) l := by
  intro l
  induction l with
  | nil => intro t idx; rfl
  | cons e rest ih =>
    intro t idx
    rw [fromIdx, emailsFrom, ih t (idx + 1)]
    rw [show t + (idx + 1) = t + idx + 1 from by omega]

/-- Emails of a run split along any chunk boundary. -/
theorem emailsFrom_split : ∀ (c : Nat) (l : List String) (t : Nat), c ≤ l.length →
    emailsFrom t (l.take c) ++ emailsFrom (t + c) (l.drop c) = emailsFrom t l := by
  intro c
  induction c with
  | zero => intro l t _; simp [emailsFrom]
  | succ c ih =>
    intro l t hc
    cases l with
    | nil => simp at hc
    | cons e rest =>
      rw [List.take_succ_cons, List.drop_succ_cons, emailsFrom, emailsFrom, List.cons_append]
      congr 1
      rw [show t + (c + 1) = (t + 1) + c from by omega]
      exact ih rest (t + 1) (by simpa using hc)

/-- One-step unfolding of the user seeder's batch loop. -/
theorem userSeederLoop_succ_cons (fuel t : Nat) (e : String) (rest : List String) :
    userSeederLoop (fuel + 1) (e :: rest) t =
      fromIdx t 0 ((e :: rest).take (min 1000 (e :: rest).length)) ++
        userSeederLoop fuel ((e :: rest).drop (min 1000 (e :: rest).length))
          (t + min 1000 (e :: rest).length) := rfl

/-- The batched seeder loop generates exactly the index-prefixed emails of the
whole run, regardless of the chunking. -/
theorem userSeederLoop_eq_emailsFrom : ∀ (fuel : Nat) (l : List String) (t : Nat),
    l.length ≤ fuel → userSeederLoop fuel l t = emailsFrom t l := by
  intro fuel
  induction fuel with
  | zero =>
    intro l t h
    rw [(List.eq_nil_of_length_eq_zero (by omega) : l = [])]
    rfl
  | succ fuel ih =>
    intro l t h
    cases l with
    | nil => rfl
    | cons e rest =>
      rw [userSeederLoop_succ_cons, fromIdx_eq_emailsFrom, Nat.add_zero]
      have hcur : min 1000 (e :: rest).length ≤ (e :: rest).length := Nat.min_le_right _ _
      have hpos : 1 ≤ min 1000 (e :: rest).length := by
        simp only [List.length_cons]
        omega
      rw [ih ((e :: rest).drop (min 1000 (e :: rest).length))
        (t + min 1000 (e :: rest).length) (by
          rw [List.length_drop]
          simp only [List.length_cons] at h ⊢
          omega)]
      exact emailsFrom_split (min 1000 (e :: rest).length) (e :: rest) t hcur

/-- Claim C6 as amended: the users generated by a run of the user seeder have
pairwise distinct emails whenever no randomly generated email begins with a
decimal digit (which holds for the email shapes the random generator
produces); the numeric run index prepended to each draw then determines the
email uniquely. For arbitrary generator outputs the claim fails — see the
counterexample. -/
theorem user_seeder_emails_distinct (randoms : List String)
    (h : ∀ e ∈ randoms, startsWithNonDigit e = true) :
    List.Pairwise (fun a b => a ≠ b) (userSeederEmails randoms) := by
  rw [userSeederEmails, userSeederLoop_eq_emailsFrom randoms.length randoms 0 (Nat.le_refl _)]
  exact emailsFrom_pairwise randoms 0 h

/-- Witness for C6 (amended): a two-user run with identical letter-initial
draws still gets distinct emails `0a@b` and `1a@b`. -/
theorem user_seeder_emails_distinct_witness :
    (∀ e ∈ (["a@b", "a@b"] : List String), startsWithNonDigit e = true) ∧
    List.Pairwise (fun a b => a ≠ b) (userSeederEmails ["a@b", "a@b"]) :=
  ⟨by decide, user_seeder_emails_distinct ["a@b", "a@b"] (by decide)⟩

/-- Counterexample for C6 as stated: the index prefix carries no separator, so
in a 13-user run where draw 1 is `"2a"` and draw 12 is `"a"`, users 1 and 12
both receive the email `"12a"` — the claimed uniqueness fails for this
possible output of the random email generator. -/
theorem user_seeder_email_collision_cex :
    userSeederEmails ["q", "2a", "q", "q", "q", "q", "q", "q", "q", "q", "q", "q", "a"] =
      ["0q", "12a", "2q", "3q", "4q", "5q", "6q", "7q", "8q", "9q", "10q", "11q", "12a"] ∧
    ¬ List.Pairwise (fun a b => a ≠ b)
      (userSeederEmails ["q", "2a", "q", "q", "q", "q", "q", "q", "q", "q", "q", "q", "a"]) :=
  ⟨by decide, by decide⟩

/-- One-step unfolding of the hyphen-run collapse. -/
theorem collapseDashes_cons₂ (a b : Char) (rest : List Char) :
    collapseDashes (a :: b :: rest) =
      if a = '-' ∧ b = '-' then collapseDashes (b :: rest)
      else a :: collapseDashes (b :: rest) := rfl

/-- Every character of the normalisation pass is slug-safe or the hyphen. -/
theorem slugOk_normChar (c : Char) :
    isSlugSafe (replaceUnsafe (toLowerChar c)) = true ∨ replaceUnsafe (toLowerChar c) = '-' := by
  unfold replaceUnsafe
  by_cases h : isSlugSafe (toLowerChar c)
  · rw [if_pos h]; exact Or.inl h
  · rw [if_neg h]; exact Or.inr rfl

/-- The normalisation pass fixes slug-safe characters and the hyphen. -/
theorem normChar_fix (c : Char) (h : isSlugSafe c = true ∨ c = '-') :
    replaceUnsafe (toLowerChar c) = c := by
  rcases h with h | h
  · have hlow : toLowerChar c = c := by
      unfold toLowerChar
      rw [if_neg]
      simp only [isSlugSafe, Bool.or_eq_true, Bool.and_eq_true, decide_eq_true_eq] at h
      omega
    rw [hlow]
    unfold replaceUnsafe
    rw [if_pos h]
  · subst h
    decide

/-- Collapsing hyphen runs introduces no new characters. -/
theorem mem_collapseDashes : ∀ (l : List Char) (c : Char), c ∈ collapseDashes l → c ∈ l := by
  intro l
  induction l with
  | nil => intro c hc; exact hc
  | cons a t ih =>
    cases t with
    | nil => intro c hc; exact hc
    | cons b rest =>
      intro c hc
      rw [collapseDashes_cons₂] at hc
      by_cases h : a = '-' ∧ b = '-'
      · rw [if_pos h] at hc
        exact List.mem_cons_of_mem a (ih c hc)
      · rw [if_neg h] at hc
        rcases List.mem_cons.mp hc with h1 | h1
        · rw [h1]; exact List.mem_cons_self a _
        · exact List.mem_cons_of_mem a (ih c h1)

/-- Trimming hyphens introduces no new characters. -/
theorem mem_trimDashes (l : List Char) (c : Char) (hc : c ∈ trimDashes l) : c ∈ l := by
  unfold trimDashes at hc
  rw [List.mem_reverse] at hc
  have h1 := (List.dropWhile_suffix _).subset hc
  rw [List.mem_reverse] at h1
  exact (List.dropWhile_suffix _).subset h1

/-- Collapsing preserves a non-hyphen head. -/
theorem collapseDashes_head (b : Char) (rest : List Char) (hb : b ≠ '-') :
    (collapseDashes (b :: rest)).head? = some b := by
  cases rest with
  | nil => rfl
  | cons c rest' =>
    rw [collapseDashes_cons₂, if_neg (fun h => hb h.1)]
    rfl

/-- After collapsing, no two adjacent characters are both hyphens. -/
theorem chain'_collapseDashes : ∀ l : List Char,
    List.Chain' (fun a b => ¬(a = '-' ∧ b = '-')) (collapseDashes l) := by
  intro l
  induction l with
  | nil => exact List.chain'_nil
  | cons a t ih =>
    cases t with
    | nil => exact List.chain'_singleton a
    | cons b rest =>
      rw [collapseDashes_cons₂]
      by_cases h : a = '-' ∧ b = '-'
      · rw [if_pos h]; exact ih
      · rw [if_neg h]
        rw [List.chain'_cons']
        refine ⟨?_, ih⟩
        intro y hy
        by_cases ha : a = '-'
        · have hb : b ≠ '-' := fun hb => h ⟨ha, hb⟩
          rw [collapseDashes_head b rest hb] at hy
          simp only [Option.mem_def, Option.some.injEq] at hy
          intro hcon
          rw [← hy] at hcon
          exact hb hcon.2
        · intro hcon
          exact ha hcon.1

/-- Collapsing fixes any list with no adjacent double hyphen. -/
theorem collapseDashes_eq_self : ∀ l : List Char,
    List.Chain' (fun a b => ¬(a = '-' ∧ b = '-')) l → collapseDashes l = l := by
  intro l
  induction l with
  | nil => intro _; rfl
  | cons a t ih =>
    cases t with
    | nil => intro _; rfl
    | cons b rest =>
      intro h
      rw [List.chain'_cons] at h
      rw [collapseDashes_cons₂, if_neg h.1, ih h.2]

/-- `dropWhile` preserves adjacency invariants. -/
theorem chain'_dropWhile {α : Type} {R : α → α → Prop} (p : α → Bool) :
    ∀ l : List α, List.Chain' R l → List.Chain' R (l.dropWhile p) := by
  intro l
  induction l with
  | nil => intro h; exact h
  | cons a t ih =>
    intro h
    by_cases hp : p a
    · rw [List.dropWhile_cons_of_pos hp]
      exact ih h.tail
    · rw [List.dropWhile_cons_of_neg hp]
      exact h

/-- The no-double-hyphen invariant is symmetric, hence stable under
reversal. -/
theorem chain'_rev_dash (l : List Char)
    (h : List.Chain' (fun a b => ¬(a = '-' ∧ b = '-')) l) :
    List.Chain' (fun a b => ¬(a = '-' ∧ b = '-')) l.reverse := by
  rw [List.chain'_reverse]
  exact h.imp (fun a b hab hc => hab ⟨hc.2, hc.1⟩)

/-- Trimming preserves the no-double-hyphen invariant. -/
theorem chain'_trimDashes (l : List Char)
    (h : List.Chain' (fun a b => ¬(a = '-' ∧ b = '-')) l) :
    List.Chain' (fun a b => ¬(a = '-' ∧ b = '-')) (trimDashes l) := by
  unfold trimDashes
  exact chain'_rev_dash _ (chain'_dropWhile _ _ (chain'_rev_dash _ (chain'_dropWhile _ _ h)))

/-- The head surviving a `dropWhile` fails the dropped predicate. -/
theorem dropWhile_head?_false {α : Type} (p : α → Bool) : ∀ (l : List α) (c : α),
    (l.dropWhile p).head? = some c → p c = false := by
  intro l
  induction l with
  | nil => intro c hc; exact absurd hc (by simp)
  | cons a t ih =>
    intro c hc
    by_cases hp : p a
    · rw [List.dropWhile_cons_of_pos hp] at hc
      exact ih c hc
    · rw [List.dropWhile_cons_of_neg hp] at hc
      simp only [List.head?_cons, Option.some.injEq] at hc
      rw [← hc]
      simpa using hp

/-- `dropWhile` fixes a list whose head already fails the predicate. -/
theorem dropWhile_eq_self_of_head {α : Type} (p : α → Bool) (l : List α)
    (h : ∀ c, l.head? = some c → p c = false) : l.dropWhile p = l := by
  cases l with
  | nil => rfl
  | cons a t =>
    have := h a rfl
    exact List.dropWhile_cons_of_neg (by simp [this])

/-- A nonempty suffix has the same last element as the whole list. -/
theorem getLast?_of_suffix {α : Type} {l1 l2 : List α} (h : l1 <:+ l2) (hne : l1 ≠ []) :
    l1.getLast? = l2.getLast? := by
  obtain ⟨t, rfl⟩ := h
  rw [List.getLast?_append]
  cases hx : l1.getLast? with
  | none => exact absurd (List.getLast?_eq_none_iff.mp hx) hne
  | some x => rfl

/-- Trimming hyphens is idempotent. -/
theorem trimDashes_idem (y : List Char) : trimDashes (trimDashes y) = trimDashes y := by
  by_cases hv : ((y.dropWhile (· = '-')).reverse).dropWhile (· = '-') = []
  · unfold trimDashes
    rw [hv]
    rfl
  · have h1 : ∀ c, (((y.dropWhile (· = '-')).reverse).dropWhile (· = '-')).head? = some c →
        decide (c = '-') = false := fun c hc => dropWhile_head?_false _ _ c hc
    have h2 : ∀ c, (y.dropWhile (· = '-')).head? = some c → decide (c = '-') = false :=
      fun c hc => dropWhile_head?_false _ _ c hc
    have h3 : ((((y.dropWhile (· = '-')).reverse).dropWhile (· = '-'))).getLast? =
        ((y.dropWhile (· = '-')).reverse).getLast? :=
      getLast?_of_suffix (List.dropWhile_suffix _) hv
    have h4 : ∀ c, (((((y.dropWhile (· = '-')).reverse).dropWhile (· = '-'))).reverse).head? =
        some c → decide (c = '-') = false := by
      intro c hc
      rw [List.head?_reverse, h3, List.getLast?_reverse] at hc
      exact h2 c hc
    unfold trimDashes
    rw [dropWhile_eq_self_of_head _ _ h4, List.reverse_reverse,
      dropWhile_eq_self_of_head _ _ h1]

/-- `slugifyL` output is fixed by a second application: its characters are
slug-safe or hyphens (so normalisation fixes them), no two hyphens are
adjacent (so collapsing fixes it) and the ends are already trimmed. -/
theorem slugifyL_idem (l : List Char) : slugifyL (slugifyL l) = slugifyL l := by
  have hmem : ∀ c ∈ slugifyL l, isSlugSafe c = true ∨ c = '-' := by
    intro c hc
    unfold slugifyL at hc
    have h1 := mem_trimDashes _ c hc
    have h2 := mem_collapseDashes _ c h1
    rw [List.mem_map] at h2
    obtain ⟨x, _, rfl⟩ := h2
    exact slugOk_normChar x
  have hmap : (slugifyL l).map (fun c => replaceUnsafe (toLowerChar c)) = slugifyL l :=
    (List.map_congr_left (fun c hc => normChar_fix c (hmem c hc))).trans (List.map_id _)
  have hnd : List.Chain' (fun a b => ¬(a = '-' ∧ b = '-')) (slugifyL l) :=
    chain'_trimDashes _ (chain'_collapseDashes _)
  show trimDashes (collapseDashes ((slugifyL l).map (fun c => replaceUnsafe (toLowerChar c)))) =
    slugifyL l
  rw [hmap, collapseDashes_eq_self _ hnd]
  show trimDashes (trimDashes (collapseDashes (l.map (fun c => replaceUnsafe (toLowerChar c))))) =
    slugifyL l
  exact trimDashes_idem _

/-- Claim C8: `slugify` is pure — it is a total function of its argument
alone, so the same input always yields the same output — and idempotent:
reapplying it to its own output changes nothing. -/
theorem slugify_idempotent (x : String) : slugify (slugify x) = slugify x := by
  unfold slugify
  exact congrArg String.mk (slugifyL_idem x.data)

end SchoolManager
